import Mathlib

/-!
Shallow embedding of the Shift Compliance & Coverage Engine of the
pixlcat-sling-api repository (source: src/unnamed/part_000).

Modelling conventions, used consistently below:
* Instants are civil times in the store timezone, measured in whole minutes
  from a fixed epoch whose day 0 is a Sunday.  JS `Date` values in the source
  carry millisecond instants; every comparison the engine performs is at
  minute resolution (shift times, availability windows, "H:MM" request
  strings), so minutes lose nothing.  `23:59:59.999` day ends become the
  last minute of the day.
* `toDateString` equality in the source becomes equality of day indices,
  `getDay()` becomes day index mod 7, `getHours()*60 + getMinutes()`
  becomes the instant mod 1440.
* Hours are kept as minute counts: the source compares fractional hours
  against the cap 40, which is equivalent to comparing minute totals
  against 2400 (exact scaling by 60, no floats needed).
* The upstream Sling fetch `getOrgCalendar(a, b)` is modelled as filtering
  a global calendar snapshot (`Env`) down to the records overlapping the
  requested range; the range arithmetic of each endpoint is embedded as in
  the source.  `getOrgCalendar` in the source always sets the `duration`
  field of a shift to `(dtend - dtstart)/3600000`, so the fallback
  `s.duration || (end - start)` in the validate handler always equals
  `end - start`; shifts therefore carry no separate duration field here.
* Human-readable message strings of violations, warnings, reasons and
  notes are elided; each distinct `push` site in the source is represented
  by a distinct rule code or constructor, so the information content the
  claims talk about (which rule fired, with which severity) is preserved.
-/

namespace Pixlcat

/-- Day index of an instant (floor division, calendar-correct for all instants). -/
def dayOf (t : Int) : Int := Int.fdiv t 1440

/-- Minute-of-day of an instant, as produced by `getHours()*60+getMinutes()`. -/
def minuteOfDay (t : Int) : Int := t % 1440

/-- First minute of a civil day (the `00:00:00` day start of `getDayRange`). -/
def dayStart (d : Int) : Int := d * 1440

/-- Last minute of a civil day (the `23:59:59.999` day end of `getDayRange`). -/
def dayEnd (d : Int) : Int := d * 1440 + 1439

/-- Weekday of a day index; day 0 of the epoch is a Sunday, so 0 = Sunday. -/
def dowOf (d : Int) : Int := d % 7

/-- Substring test on char lists, modelling JS `String.prototype.includes`. -/
def charsInclude (need : List Char) : List Char → Bool
  | [] => need.isEmpty
  | c :: t => need.isPrefixOf (c :: t) || charsInclude need t

/-- JS `hay.includes(need)` on strings. -/
def strIncludes (hay need : String) : Bool := charsInclude need.data hay.data

/-- Normalized shift record, as produced by `getOrgCalendar`. -/
structure Shift where
  employeeId : Option Int
  employee : String
  position : Option String
  locationId : Option Int
  location : Option String
  start : Int
  stop : Int
deriving DecidableEq, Repr

/-- Normalized leave record, as produced by `getOrgCalendar`. -/
structure Leave where
  employeeId : Option Int
  start : Int
  stop : Int
  fullDay : Bool
  approved : Bool
deriving DecidableEq, Repr

/-- Normalized availability record, as produced by `getOrgCalendar`. -/
structure Avail where
  employeeId : Option Int
  start : Int
  stop : Int
  fullDay : Bool
deriving DecidableEq, Repr

/-- Sling user record (`/users`), the fields the engine reads. -/
structure User where
  id : Int
  name : Option String
  lname : Option String
deriving DecidableEq, Repr

/-- The upstream calendar snapshot the collaborator serves ranges from. -/
structure Env where
  shifts : List Shift
  leaves : List Leave
  avails : List Avail
deriving DecidableEq, Repr

/-- One fetched range of the calendar. -/
structure Calendar where
  shifts : List Shift
  leaves : List Leave
  avails : List Avail
deriving DecidableEq, Repr

/-- Range fetch of the calendar: the records overlapping `[a, b]`. -/
def getOrgCalendar (env : Env) (a b : Int) : Calendar where
  shifts := env.shifts.filter fun s => decide (s.start ≤ b) && decide (a ≤ s.stop)
  leaves := env.leaves.filter fun l => decide (l.start ≤ b) && decide (a ≤ l.stop)
  avails := env.avails.filter fun v => decide (v.start ≤ b) && decide (a ≤ v.stop)

-- ============================================================
-- SCHEDULING ENGINE CONSTANTS (v2.0)
-- ============================================================

def CLEMENT : Int := 16124319

def NINTH : Int := 16128300

/-- `CROSS_LOCATION_POOL`: Sara, Brianna, James, Emily, Clayton, David. -/
def CROSS_LOCATION_POOL : List Int :=
  [24949126, 21868029, 19506789, 24605713, 22635995, 12302285]

/-- Weekly cap, in minutes (`MAX_WEEKLY_HOURS = 40`). -/
def MAX_WEEKLY_MINUTES : Int := 40 * 60

def MAX_CONSECUTIVE_DAYS : Nat := 7

def WARN_CONSECUTIVE_DAYS : Nat := 6

/-- The `EMPLOYEE_NAMES` table, keyed by Sling user id. -/
def EMPLOYEE_NAMES : List (Int × String) :=
  [(16159503, "Jesus"), (22563123, "Jessica"), (22635995, "Clayton"),
   (21868029, "Brianna"), (19838518, "Hayden"), (16764426, "Saige"),
   (24605713, "Emily"), (24950241, "Otilia"), (24950518, "Maya M"),
   (13125426, "Maya L"), (24949126, "Sara"), (16422126, "Anya"),
   (19506789, "James"), (12302285, "David"), (19763164, "Jeffrey")]

/-- Employee resolution (`resolveEmployeeId`): a numeric string parses to its
number, otherwise the name is looked up case-insensitively in
`EMPLOYEE_NAMES`; unknown names resolve to `none` (JS `null`). -/
def resolveEmployeeId (nameOrId : Option String) : Option Int :=
  match nameOrId with
  | none => none
  | some s =>
    match s.toNat? with
    | some n => some (n : Int)
    | none =>
      match EMPLOYEE_NAMES.find? fun p => p.2.toLower == s.toLower with
      | some p => some p.1
      | none => none

-- ============================================================
-- POST /schedule/validate
-- ============================================================

/-- Severity of a rule violation. -/
inductive Sev | RED | ORANGE | YELLOW
deriving DecidableEq, Repr

/-- Stable rule codes of the validate pipeline (source strings such as
`LEAVE-001` spelled without the dash). -/
inductive Rule
  | LEAVE001 | AVAIL001 | XLOC001 | HOURS001 | CONSEC001 | CONSEC002
  | AVAILFALLBACK
deriving DecidableEq, Repr

/-- A violation or warning entry: rule code plus severity (message elided). -/
structure Violation where
  rule : Rule
  severity : Sev
deriving DecidableEq, Repr

/-- Overall verdict status. -/
inductive Status | BLOCKED | NEEDS_APPROVAL | UNCONFIRMED | APPROVED
deriving DecidableEq, Repr

/-- The validate response (display name, message strings, and the rounding
of the hour fields for display are elided; hours are kept in minutes). -/
structure Verdict where
  status : Status
  violations : List Violation
  warnings : List Violation
  weeklyMinutes : Int
  projectedMinutes : Int
  consecutiveDays : Nat
deriving DecidableEq, Repr

/-- Input errors: the three early `res.status(400)` / thrown-date returns. -/
inductive VError | employeeNotFound | dateRequired | invalidDate
deriving DecidableEq, Repr

/-- A request date: either it parses to a civil day or it is malformed (an
unparsable string makes `getDayRange` throw on `toISOString`). -/
inductive DateInput | valid (day : Int) | malformed
deriving DecidableEq, Repr

/-- A parsed `"H:MM"` time-of-day string from the request body. -/
structure HM where
  h : Int
  m : Int
deriving DecidableEq, Repr

/-- Minutes denoted by an `"H:MM"` request time. -/
def hmMinutes (t : HM) : Int := t.h * 60 + t.m

/-- The request `location` field: a string or a numeric location id. -/
inductive LocInput
  | byName (s : String)
  | byId (n : Int)
deriving DecidableEq, Repr

/-- The body of a `POST /schedule/validate` request, with the string fields
already parsed (`employeeId` via `parseInt`, times via `split(":")`). -/
structure ValidateReq where
  employeeId : Option Int
  employee : Option String
  date : Option DateInput
  startTime : Option HM
  endTime : Option HM
  location : Option LocInput
deriving Repr

/-- The `userId` computation: a truthy `employeeId` wins, otherwise the
`employee` name is resolved; a falsy result (JS `!userId`) is a reject. -/
def userIdOf (r : ValidateReq) : Option Int :=
  let uid :=
    match r.employeeId with
    | some n => some n
    | none => resolveEmployeeId r.employee
  match uid with
  | some n => if n == 0 then none else some n
  | none => none

/-- Target location resolution: a string containing `9th` (lowercased)
selects NINTH, a truthy number selects itself, all else is CLEMENT. -/
def targetLocOf : Option LocInput → Int
  | none => CLEMENT
  | some (.byName s) => if strIncludes s.toLower "9th" then NINTH else CLEMENT
  | some (.byId n) => if n == 0 then CLEMENT else n

/-- Gate 1 containment test: minute-of-day of the request window against
minute-of-day of each availability window (`getHours()*60+getMinutes()`). -/
def minuteFitsAny (empAvails : List Avail) (shiftStartMin shiftEndMin : Int) : Bool :=
  empAvails.any fun a =>
    decide (shiftStartMin ≥ minuteOfDay a.start) &&
    decide (shiftEndMin ≤ minuteOfDay a.stop)

/-- Gate 1 (availability + leave): `LEAVE-001` and `AVAIL-001` violations
plus the `AVAIL-FALLBACK` warning.  Returned as (violations, warnings).
The source guard `empAvails.length > 0 && startTime && endTime` is split
over the pattern match; when it fails, the else-branch warns exactly when
`empAvails.length === 0 && !hasLeave` (a nonempty `empAvails` never warns). -/
def gate1 (cal : Calendar) (uid : Int) (r : ValidateReq) :
    List Violation × List Violation :=
  let hasLeave := (cal.leaves.find? fun l => l.employeeId == some uid).isSome
  let leaveV : List Violation :=
    if hasLeave then [⟨.LEAVE001, .RED⟩] else []
  let empAvails := cal.avails.filter fun a => a.employeeId == some uid
  let availV : List Violation :=
    match r.startTime, r.endTime with
    | some st, some et =>
      if 0 < empAvails.length && !(empAvails.any fun a => a.fullDay) then
        if minuteFitsAny empAvails (hmMinutes st) (hmMinutes et) then []
        else [⟨.AVAIL001, .RED⟩]
      else []
    | _, _ => []
  let availW : List Violation :=
    if empAvails.isEmpty && !hasLeave then [⟨.AVAILFALLBACK, .YELLOW⟩] else []
  (leaveV ++ availV, availW)

/-- The `s.location || ""` coercion. -/
def locString (s : Shift) : String := s.location.getD ""

/-- Gate 2 (cross-location conflict): only for pool members; looks for a
same-day shift at the other of the two locations, matched by id or by the
location-name fallback. -/
def gate2 (cal : Calendar) (uid : Int) (targetLocId : Int) : List Violation :=
  if CROSS_LOCATION_POOL.contains uid then
    let otherLocId := if targetLocId == CLEMENT then NINTH else CLEMENT
    let otherLocShift := cal.shifts.find? fun s =>
      s.employeeId == some uid &&
      (s.locationId == some otherLocId ||
       (otherLocId == NINTH && strIncludes (locString s) "9th") ||
       (otherLocId == CLEMENT && strIncludes (locString s) "Clement"))
    if otherLocShift.isSome then [⟨.XLOC001, .RED⟩] else []
  else []

/-- Monday 00:00 of the ISO week of a day (`getWeekRange`). -/
def mondayOf (d : Int) : Int :=
  d - (if dowOf d == 0 then 6 else dowOf d - 1)

/-- Scheduled minutes of an employee over a list of shifts (the source sums
`s.duration || (end - start)/3600000` hours; `duration` always equals the
computed value, see module docstring). -/
def weeklyMinutesOf (weekShifts : List Shift) (uid : Int) : Int :=
  (weekShifts.filter fun s => s.employeeId == some uid).foldl
    (fun acc s => acc + (s.stop - s.start)) 0

/-- Minutes of the proposed window; `0` when either bound is missing. -/
def proposedMinutesOf (r : ValidateReq) : Int :=
  match r.startTime, r.endTime with
  | some st, some et => hmMinutes et - hmMinutes st
  | _, _ => 0

/-- One step of the `while (true)` day walk of Gate 4: how many consecutive
days `d + step, d + 2*step, ...` are in the worked-day set.  The fuel
`wdays.length + 1` is exact for a duplicate-free `wdays`: each hit consumes
a distinct member, so the walk always stops by a natural miss first. -/
def walkFrom (wdays : List Int) : Nat → Int → Int → Nat
  | 0, _, _ => 0
  | fuel + 1, d, step =>
    if wdays.contains (d + step) then 1 + walkFrom wdays fuel (d + step) step
    else 0

/-- Gate 4 streak: 1 for the target day plus the backward and forward walks
over the deduplicated set of worked days. -/
def streakOf (wdays : List Int) (d : Int) : Nat :=
  1 + walkFrom wdays (wdays.length + 1) d (-1) +
    walkFrom wdays (wdays.length + 1) d 1

/-- Verdict resolution exactly as in the handler: filter by severity, then
the `RED`, `ORANGE`, warnings, `APPROVED` chain. -/
def resolveStatus (violations warnings : List Violation) : Status :=
  let redV := violations.filter fun v => v.severity == .RED
  let orangeV := violations.filter fun v => v.severity == .ORANGE
  if 0 < redV.length then .BLOCKED
  else if 0 < orangeV.length then .NEEDS_APPROVAL
  else if 0 < warnings.length then .UNCONFIRMED
  else .APPROVED

/-- The one-day fetch serving Gates 1 and 2. -/
def dayCalOf (env : Env) (day : Int) : Calendar :=
  getOrgCalendar env (dayStart day) (dayEnd day)

/-- GATE 3 data: shifts of the Monday-to-Sunday week fetch. -/
def weekShiftsOf (env : Env) (day : Int) : List Shift :=
  (getOrgCalendar env (dayStart (mondayOf day)) (dayEnd (mondayOf day + 6))).shifts

/-- GATE 3 data: the scheduled minutes of `uid` in the target week. -/
def weeklyOf (env : Env) (uid day : Int) : Int :=
  weeklyMinutesOf (weekShiftsOf env day) uid

/-- GATE 3 data: weekly minutes plus the proposed window. -/
def projectedOf (env : Env) (r : ValidateReq) (uid day : Int) : Int :=
  weeklyOf env uid day + proposedMinutesOf r

/-- GATE 3 (weekly hours): strictly above the cap is an `ORANGE` violation. -/
def gate3 (env : Env) (r : ValidateReq) (uid day : Int) : List Violation :=
  if projectedOf env r uid day > MAX_WEEKLY_MINUTES then [⟨.HOURS001, .ORANGE⟩]
  else []

/-- GATE 4 data: the deduplicated worked days of `uid` in the ±8-day fetch
(both fetch ends at 00:00, per the source `setDate` calls) plus the target. -/
def streakWdays (env : Env) (uid day : Int) : List Int :=
  (day :: ((getOrgCalendar env (dayStart (day - 8)) (dayStart (day + 8))).shifts.filter
    fun s => s.employeeId == some uid).map fun s => dayOf s.start).dedup

/-- GATE 4 data: the consecutive-day streak through the target day. -/
def streakCount (env : Env) (uid day : Int) : Nat :=
  streakOf (streakWdays env uid day) day

/-- GATE 4 (consecutive days): `CONSEC-001` at the hard cap, `CONSEC-002`
at the warn threshold. -/
def gate4 (env : Env) (uid day : Int) : List Violation :=
  if streakCount env uid day ≥ MAX_CONSECUTIVE_DAYS then [⟨.CONSEC001, .RED⟩]
  else if streakCount env uid day ≥ WARN_CONSECUTIVE_DAYS then [⟨.CONSEC002, .ORANGE⟩]
  else []

/-- The accumulated violations, in source push order. -/
def validateViolations (env : Env) (r : ValidateReq) (uid day : Int) : List Violation :=
  (gate1 (dayCalOf env day) uid r).1 ++
    gate2 (dayCalOf env day) uid (targetLocOf r.location) ++
    gate3 env r uid day ++ gate4 env uid day

/-- The accumulated warnings (only Gate 1 pushes warnings). -/
def validateWarnings (env : Env) (r : ValidateReq) (uid day : Int) : List Violation :=
  (gate1 (dayCalOf env day) uid r).2

/-- The four gates of the validate handler, after the input checks passed,
for resolved user `uid` and civil day `day`. -/
def validateCore (env : Env) (r : ValidateReq) (uid : Int) (day : Int) : Verdict :=
  { status := resolveStatus (validateViolations env r uid day) (validateWarnings env r uid day)
    violations := validateViolations env r uid day
    warnings := validateWarnings env r uid day
    weeklyMinutes := weeklyOf env uid day
    projectedMinutes := projectedOf env r uid day
    consecutiveDays := streakCount env uid day }

/-- The `POST /schedule/validate` handler: the input checks in source
order (employee resolution, date presence, date parse), then the gates. -/
def validate (env : Env) (r : ValidateReq) : Except VError Verdict :=
  match userIdOf r with
  | none => .error .employeeNotFound
  | some uid =>
    match r.date with
    | none => .error .dateRequired
    | some .malformed => .error .invalidDate
    | some (.valid day) => .ok (validateCore env r uid day)

-- ============================================================
-- COVERAGE FINDER
-- ============================================================

/-- Day type of an instant (`getDay() === 0 || getDay() === 6`). -/
inductive DayType | weekday | weekend
deriving DecidableEq, Repr

def dayTypeOf (t : Int) : DayType :=
  if dowOf (dayOf t) == 0 || dowOf (dayOf t) == 6 then .weekend else .weekday

/-- The grouping key of `getShiftTemplates`.  The source concatenates the
four components with `|` into one string; since the two time components are
`H:MM` renderings (no `|`, exactly one `:`) and the day type is one of two
fixed words, that concatenation is injective in the components, so the
structured key groups exactly as the string key does. -/
structure SlotKey where
  position : String
  startTime : Int
  endTime : Int
  dayType : DayType
deriving DecidableEq, Repr

/-- A shift template: one observed slot group with its frequency.  The
time-of-day strings are carried as minute-of-day numbers (the `H:MM`
rendering is injective); `durationMin` is the `hours` field of the first
shift observed in the group, in minutes. -/
structure Template where
  position : String
  startTime : Int
  endTime : Int
  durationMin : Int
  dayType : DayType
  count : Nat
deriving DecidableEq, Repr

/-- Grouping key of a shift (`position || "Unknown"`, start/end
time-of-day, day type). -/
def slotKeyOf (s : Shift) : SlotKey :=
  ⟨s.position.getD "Unknown", minuteOfDay s.start, minuteOfDay s.stop,
    dayTypeOf s.start⟩

/-- The key a template was built from (its four grouped dimensions). -/
def tKey (t : Template) : SlotKey := ⟨t.position, t.startTime, t.endTime, t.dayType⟩

/-- One step of the `slotCounts` accumulation: create the record on first
sight (fields from the current shift) and bump its count. -/
def bumpSlot (acc : List (SlotKey × Template)) (s : Shift) : List (SlotKey × Template) :=
  let k := slotKeyOf s
  if acc.any fun p => p.1 == k then
    acc.map fun p => if p.1 == k then (p.1, { p.2 with count := p.2.count + 1 }) else p
  else
    acc ++ [(k, ⟨k.position, k.startTime, k.endTime, s.stop - s.start, k.dayType, 1⟩)]

/-- The `slotCounts` object of `getShiftTemplates`, as an insertion-ordered
association list. -/
def slotFold (l : List Shift) : List (SlotKey × Template) := l.foldl bumpSlot []

/-- The `(s.location || "").includes("Clement")` filter. -/
def clementShiftsOf (l : List Shift) : List Shift :=
  l.filter fun s => strIncludes (locString s) "Clement"

/-- The `getShiftTemplates` computation, with the contents of the trailing
28-day fetch supplied as the parameter: group the Clement shifts by slot
key, keep groups of count at least 3, order by descending count (the JS
`sort((a, b) => b.count - a.count)` is modelled by a stable sort under the
corresponding total preorder). -/
def getShiftTemplates (windowShifts : List Shift) : List Template :=
  List.insertionSort (fun a b => b.count ≤ a.count)
    (((slotFold (clementShiftsOf windowShifts)).map Prod.snd).filter
      fun t => decide (3 ≤ t.count))

/-- The match tier of `matchesTemplate` (`exact`, `position`, `time`,
`none`). -/
inductive MatchKind | exact | byPosition | byTime | noMatch
deriving DecidableEq, Repr

/-- Result of `matchesTemplate`. -/
structure MatchResult where
  kind : MatchKind
  template : Option Template
deriving DecidableEq, Repr

/-- The `t.position === shiftToCover.position` comparison: the template
position is a string, the shift position is nullable. -/
def posHit (stc : Shift) (t : Template) : Bool := stc.position == some t.position

/-- All four dimensions match. -/
def exactHit (stc : Shift) (t : Template) : Bool :=
  posHit stc t && t.startTime == minuteOfDay stc.start &&
    t.endTime == minuteOfDay stc.stop && t.dayType == dayTypeOf stc.start

/-- Position and day type match. -/
def posDayHit (stc : Shift) (t : Template) : Bool :=
  posHit stc t && t.dayType == dayTypeOf stc.start

/-- Start, end and day type match. -/
def timeHit (stc : Shift) (t : Template) : Bool :=
  t.startTime == minuteOfDay stc.start && t.endTime == minuteOfDay stc.stop &&
    t.dayType == dayTypeOf stc.start

/-- The `matchesTemplate` classifier: `find` exact, else position, else
time, else none. -/
def matchesTemplate (stc : Shift) (templates : List Template) : MatchResult :=
  match templates.find? (exactHit stc) with
  | some t => ⟨.exact, some t⟩
  | none =>
    match templates.find? (posDayHit stc) with
    | some t => ⟨.byPosition, some t⟩
    | none =>
      match templates.find? (timeHit stc) with
      | some t => ⟨.byTime, some t⟩
      | none => ⟨.noMatch, none⟩

/-- Truthy employee id (`if (s.employeeId)`): present and nonzero. -/
def truthyId (o : Option Int) : Option Int :=
  o.bind fun i => if i == 0 then none else some i

/-- Sunday day index of the week of an instant (`getWeekKey`). -/
def weekKeyOf (t : Int) : Int := dayOf t - dowOf (dayOf t)

/-- Per-employee historical statistics of `getHistoricalAvgHours`, in
minutes per week (rationals, since the average is a true division). -/
structure Hist where
  avg : ℚ
  minWeek : ℚ
  maxWeek : ℚ
  weeks : Nat
deriving DecidableEq, Repr

/-- Add one shift to one employee entry of the weekly-minutes table. -/
def addWeek (weeks : List (Int × Int)) (wk dur : Int) : List (Int × Int) :=
  if weeks.any fun q => q.1 == wk then
    weeks.map fun q => if q.1 == wk then (q.1, q.2 + dur) else q
  else weeks ++ [(wk, dur)]

/-- One step of the `byEmployee` accumulation of `getHistoricalAvgHours`. -/
def histAdd (acc : List (Int × List (Int × Int))) (s : Shift) :
    List (Int × List (Int × Int)) :=
  match truthyId s.employeeId with
  | none => acc
  | some id =>
    let wk := weekKeyOf s.start
    let dur := s.stop - s.start
    if acc.any fun p => p.1 == id then
      acc.map fun p => if p.1 == id then (p.1, addWeek p.2 wk dur) else p
    else acc ++ [(id, [(wk, dur)])]

/-- The `getHistoricalAvgHours` computation over the trailing-window fetch
contents: weekly minute totals per employee, averaged over the weeks seen.
The per-employee week list is nonempty by construction, so the head-seeded
folds match `Math.min(...hrs)` and `Math.max(...hrs)`. -/
def getHistoricalAvgHours (windowShifts : List Shift) : List (Int × Hist) :=
  ((clementShiftsOf windowShifts).foldl histAdd []).map fun p =>
    let hrs : List ℚ := p.2.map fun q => (q.2 : ℚ)
    let lo : ℚ := match hrs with | [] => 0 | h :: t => t.foldl min h
    let hi : ℚ := match hrs with | [] => 0 | h :: t => t.foldl max h
    (p.1, { avg := hrs.sum / (hrs.length : ℚ), minWeek := lo, maxWeek := hi,
            weeks := hrs.length })

/-- Blocking reasons a coverage candidate can accumulate (one constructor
per `reasons.push` site, messages elided). -/
inductive CReason
  | alreadyWorkingOverlap
  | onLeave
  | availNoFit
  | noAvailSet
  | hitsCap
  | tooConsecutive (n : Nat)
deriving DecidableEq, Repr

/-- Non-blocking warnings of a coverage candidate. -/
inductive CWarn
  | doubleShift
  | consecWarn (n : Nat)
  | sixthShift
  | manyShifts (n : Nat)
  | aboveUsual
deriving DecidableEq, Repr

/-- Informational notes of a coverage candidate. -/
inductive CNote
  | availCovers
  | usualHours
  | hoursSummary
deriving DecidableEq, Repr

/-- One ranked coverage candidate. -/
structure Candidate where
  employee : String
  employeeId : Int
  available : Bool
  reasons : List CReason
  warnings : List CWarn
  notes : List CNote
  weeklyMinutes : Int
  projectedMinutes : Int
  historicalAvg : Option ℚ
deriving DecidableEq, Repr

/-- The raw-instant availability containment test of the coverage loop:
`new Date(shiftToCover.start) >= new Date(a.start) &&
new Date(shiftToCover.end) <= new Date(a.end)` over the day windows. -/
def coverageFits (shiftStart shiftStop : Int) (dayAvail : List Avail) : Bool :=
  dayAvail.any fun a => decide (shiftStart ≥ a.start) && decide (shiftStop ≤ a.stop)

/-- The maximum consecutive-day run of the coverage streak check: walk the
`len` days starting at `lo`, tracking the current and best run. -/
def maxRun (wdays : List Int) (lo : Int) (len : Nat) : Nat :=
  ((List.range len).foldl
    (fun p i =>
      if wdays.contains (lo + (i : Int)) then (p.1 + 1, max p.2 (p.1 + 1))
      else (0, p.2))
    ((0 : Nat), (0 : Nat))).2

/-- Already-working check of the candidate loop: a same-day shift is a
blocking reason when it overlaps the shift to cover, otherwise a
double-shift warning. -/
def covWork (weekShifts : List Shift) (day : Int) (stc : Shift) (empId : Int) :
    List CReason × List CWarn :=
  let alreadyWorking := weekShifts.filter fun s =>
    s.employeeId == some empId && dayOf s.start == day
  match alreadyWorking with
  | [] => ([], [])
  | existing :: _ =>
    if decide (existing.start < stc.stop) && decide (existing.stop > stc.start) then
      ([.alreadyWorkingOverlap], [])
    else ([], [.doubleShift])

/-- Leave check of the candidate loop (`targetDate` is the 00:00 instant of
the target day). -/
def covLeave (weekLeaves : List Leave) (day : Int) (empId : Int) : List CReason :=
  if weekLeaves.any fun l =>
      l.employeeId == some empId && decide (l.start ≤ dayStart day) &&
        decide (l.stop ≥ dayStart day)
  then [.onLeave] else []

/-- Availability check of the candidate loop: a full-day window always
passes; otherwise raw-instant containment in some day window, a blocking
reason when nothing fits; with no day window at all, a blocking reason
exactly when the employee has some availability record in the week fetch. -/
def covAvail (weekAvails : List Avail) (day : Int) (stcStart stcStop : Int)
    (empId : Int) : List CReason × List CNote :=
  let dayAvail := weekAvails.filter fun a =>
    a.employeeId == some empId && dayOf a.start == day
  if 0 < dayAvail.length then
    if dayAvail.any fun a => a.fullDay then ([], [])
    else if coverageFits stcStart stcStop dayAvail then ([], [.availCovers])
    else ([.availNoFit], [])
  else if weekAvails.any fun a => a.employeeId == some empId then
    ([.noAvailSet], [])
  else ([], [])

/-- The 40-hour-cap check of the candidate loop: strictly above the cap. -/
def covCap (projectedMinutes : Int) : List CReason :=
  if projectedMinutes > MAX_WEEKLY_MINUTES then [.hitsCap] else []

/-- Consecutive-day check of the candidate loop: walk the thirteen days of
the ±6-day window over the worked-day set plus the target day. -/
def covConsec (streakShifts : List Shift) (day : Int) (empId : Int) :
    List CReason × List CWarn :=
  let wdays := day :: (streakShifts.filter fun s => s.employeeId == some empId).map
    fun s => dayOf s.start
  let maxConsecutive := maxRun wdays (day - 6) 13
  if maxConsecutive ≥ MAX_CONSECUTIVE_DAYS then ([.tooConsecutive maxConsecutive], [])
  else if maxConsecutive ≥ WARN_CONSECUTIVE_DAYS then ([], [.consecWarn maxConsecutive])
  else ([], [])

/-- Shifts-per-week warning of the candidate loop. -/
def covWeekCount (weekShifts : List Shift) (empId : Int) : List CWarn :=
  let shiftsThisWeek := (weekShifts.filter fun s => s.employeeId == some empId).length
  if shiftsThisWeek + 1 == 6 then [.sixthShift]
  else if shiftsThisWeek + 1 > 6 then [.manyShifts (shiftsThisWeek + 1)]
  else []

/-- The body of the candidate loop of `findCoverage` for one employee id,
in source order: already-working, leave, availability, 40-hour cap,
consecutive days, shifts-per-week, historical average, summary note. -/
def evalCandidate (weekCal : Calendar) (streakShifts : List Shift) (day : Int)
    (stc : Shift) (shiftMinutes : Int) (histAvg : List (Int × Hist))
    (user : User) (empId : Int) : Candidate :=
  let empName := ((user.name.getD "") ++ " " ++ (user.lname.getD "")).trim
  let workR := covWork weekCal.shifts day stc empId
  let leaveR := covLeave weekCal.leaves day empId
  let availR := covAvail weekCal.avails day stc.start stc.stop empId
  let weeklyMinutes := weeklyMinutesOf weekCal.shifts empId
  let projectedMinutes := weeklyMinutes + shiftMinutes
  let capR := covCap projectedMinutes
  let consec := covConsec streakShifts day empId
  let weekW := covWeekCount weekCal.shifts empId
  let hist := histAvg.lookup empId
  let histW : List CWarn :=
    match hist with
    | some h => if (projectedMinutes : ℚ) - h.avg > 480 then [.aboveUsual] else []
    | none => []
  let histN : List CNote := match hist with | some _ => [.usualHours] | none => []
  let reasons := workR.1 ++ leaveR ++ availR.1 ++ capR ++ consec.1
  let warnings := workR.2 ++ consec.2 ++ weekW ++ histW
  let notes := availR.2 ++ histN ++ [.hoursSummary]
  { employee := empName
    employeeId := empId
    available := reasons.isEmpty
    reasons := reasons
    warnings := warnings
    notes := notes
    weeklyMinutes := weeklyMinutes
    projectedMinutes := projectedMinutes
    historicalAvg := hist.map fun h => h.avg }

/-- The candidate comparator of `findCoverage` as a Boolean preorder test:
`covLE a b` holds iff the JS comparator returns a non-positive number on
`(a, b)`: eligible before ineligible, ascending projected hours among the
eligible, ties (two ineligible) incomparable. -/
def covLE (a b : Candidate) : Bool :=
  if a.available && !b.available then true
  else if !a.available && b.available then false
  else if a.available && b.available then decide (a.projectedMinutes ≤ b.projectedMinutes)
  else true

/-- The `candidates.sort(...)` call: a stable sort under the comparator
preorder (JS `Array.prototype.sort` with a consistent comparator returns
a sorted, stable permutation, which is what `insertionSort` computes). -/
def sortCandidates (l : List Candidate) : List Candidate :=
  List.insertionSort (fun a b => covLE a b = true) l

/-- The `findCoverage` result (the rendered date and sales-context labels
of the response, which carry no rule content, are elided). -/
structure CovResult where
  shiftToCover : Shift
  templateMatch : MatchResult
  candidates : List Candidate
deriving DecidableEq, Repr

/-- The `findCoverage(targetDay, targetEmployeeName)` computation.  The
target day arrives already parsed to a civil day; `histShifts` is the
contents of the trailing 28-day fetch that feeds both
`getHistoricalAvgHours` and `getShiftTemplates`; `none` is the
no-shift-found error return. -/
def findCoverage (env : Env) (users : List User) (histShifts : List Shift)
    (day : Int) (targetName : Option String) : Option CovResult :=
  let weekStartDay := day - dowOf day
  let weekCal := getOrgCalendar env (dayStart weekStartDay) (dayEnd (weekStartDay + 6))
  let streakCal := getOrgCalendar env (dayStart (day - 6)) (dayEnd (day + 6))
  let targetShifts := weekCal.shifts.filter fun s =>
    dayOf s.start == day &&
      (match targetName with
       | none => true
       | some nm => strIncludes s.employee.toLower nm.toLower)
  match targetShifts with
  | [] => none
  | stc :: _ =>
    let shiftMinutes := stc.stop - stc.start
    let clementIds :=
      ((clementShiftsOf weekCal.shifts).filterMap (fun s => truthyId s.employeeId) ++
       (clementShiftsOf streakCal.shifts).filterMap (fun s => truthyId s.employeeId) ++
       weekCal.avails.filterMap (fun a => truthyId a.employeeId)).dedup
    let histAvg := getHistoricalAvgHours histShifts
    let templates := getShiftTemplates histShifts
    let candidates := clementIds.filterMap fun empId =>
      if some empId == stc.employeeId then none
      else
        match users.find? fun u => u.id == empId with
        | none => none
        | some user =>
          some (evalCandidate weekCal streakCal.shifts day stc shiftMinutes
            histAvg user empId)
    some { shiftToCover := stc
           templateMatch := matchesTemplate stc templates
           candidates := sortCandidates candidates }

-- ============================================================
-- SHARED LEMMAS
-- ============================================================

/-- A successful validate call resolved a user and a valid day, and its
verdict is the gate computation for them. -/
theorem validate_ok_elim {env : Env} {r : ValidateReq} {v : Verdict}
    (h : validate env r = Except.ok v) :
    ∃ uid day, userIdOf r = some uid ∧ r.date = some (.valid day) ∧
      v = validateCore env r uid day := by
  unfold validate at h
  cases hu : userIdOf r with
  | none => rw [hu] at h; cases h
  | some uid =>
    rw [hu] at h
    cases hd : r.date with
    | none => rw [hd] at h; cases h
    | some d =>
      rw [hd] at h
      cases d with
      | malformed => cases h
      | valid day =>
        cases h
        exact ⟨uid, day, rfl, rfl, rfl⟩

/-- Positivity of a filtered length is the Boolean `any` of the predicate. -/
theorem filter_length_pos_any {α : Type} (p : α → Bool) (l : List α) :
    (0 < (l.filter p).length) ↔ l.any p = true := by
  simp [List.length_pos, Ne, List.filter_eq_nil_iff, List.any_eq_true]

/-- The filter-then-count status resolution equals the any-based chain. -/
theorem resolveStatus_chain (vs ws : List Violation) :
    resolveStatus vs ws =
      (if vs.any fun x => x.severity == .RED then .BLOCKED
       else if vs.any fun x => x.severity == .ORANGE then .NEEDS_APPROVAL
       else if !ws.isEmpty then .UNCONFIRMED
       else .APPROVED) := by
  unfold resolveStatus
  have h1 := filter_length_pos_any (fun v => v.severity == .RED) vs
  have h2 := filter_length_pos_any (fun v => v.severity == .ORANGE) vs
  have h3 : (0 < ws.length) ↔ (!ws.isEmpty) = true := by cases ws <;> simp
  rw [if_congr h1 rfl (if_congr h2 rfl (if_congr h3 rfl rfl))]

-- ============================================================
-- CLAIMS
-- ============================================================

/-- C1: for every Validate call that passes the input checks, the overall
status is resolved from the accumulated violations and warnings with the
exact priority: any RED violation gives BLOCKED; else any ORANGE violation
gives NEEDS_APPROVAL; else any warning gives UNCONFIRMED; else APPROVED. -/
theorem claim1_status_priority (env : Env) (r : ValidateReq) (v : Verdict)
    (h : validate env r = Except.ok v) :
    v.status =
      (if v.violations.any fun x => x.severity == .RED then .BLOCKED
       else if v.violations.any fun x => x.severity == .ORANGE then .NEEDS_APPROVAL
       else if !v.warnings.isEmpty then .UNCONFIRMED
       else .APPROVED) := by
  obtain ⟨uid, day, _, _, rfl⟩ := validate_ok_elim h
  exact resolveStatus_chain _ _

def emptyEnv : Env := ⟨[], [], []⟩

def defaultVerdict : Verdict := ⟨.APPROVED, [], [], 0, 0, 0⟩

def c1req : ValidateReq :=
  ⟨some 100, none, some (.valid 6), some ⟨9, 0⟩, some ⟨13, 0⟩, none⟩

def c1v : Verdict := (validate emptyEnv c1req).toOption.getD defaultVerdict

/-- Witness for C1 at a concrete request over the empty calendar. -/
theorem claim1_status_priority_w :
    c1v.status =
      (if c1v.violations.any fun x => x.severity == .RED then .BLOCKED
       else if c1v.violations.any fun x => x.severity == .ORANGE then .NEEDS_APPROVAL
       else if !c1v.warnings.isEmpty then .UNCONFIRMED
       else .APPROVED) :=
  claim1_status_priority emptyEnv c1req c1v (by rfl)

/-- Gate 1 can only push the leave and availability violations. -/
theorem gate1_violations_sub {cal : Calendar} {uid : Int} {r : ValidateReq}
    {w : Violation} (h : w ∈ (gate1 cal uid r).1) :
    w = ⟨.LEAVE001, .RED⟩ ∨ w = ⟨.AVAIL001, .RED⟩ := by
  simp only [gate1] at h
  rcases List.mem_append.mp h with h | h
  · left
    split at h <;> simp_all
  · right
    split at h
    · split at h
      · split at h <;> simp_all
      · simp_all
    · simp_all

/-- Gate 1 warnings are at most the fallback warning. -/
theorem gate1_warnings_sub {cal : Calendar} {uid : Int} {r : ValidateReq}
    {w : Violation} (h : w ∈ (gate1 cal uid r).2) : w = ⟨.AVAILFALLBACK, .YELLOW⟩ := by
  simp only [gate1] at h
  split at h <;> simp_all

/-- Gate 2 can only push the cross-location violation. -/
theorem gate2_violations_sub {cal : Calendar} {uid targetLocId : Int}
    {w : Violation} (h : w ∈ gate2 cal uid targetLocId) : w = ⟨.XLOC001, .RED⟩ := by
  simp only [gate2] at h
  split at h
  · split at h <;> simp_all
  · simp_all

/-- Gate 3 membership: exactly the overtime violation, exactly when the
projected minutes strictly exceed the cap. -/
theorem gate3_mem {env : Env} {r : ValidateReq} {uid day : Int} {w : Violation} :
    w ∈ gate3 env r uid day ↔
      MAX_WEEKLY_MINUTES < projectedOf env r uid day ∧ w = ⟨.HOURS001, .ORANGE⟩ := by
  simp only [gate3]
  split <;> simp_all [gt_iff_lt]

/-- Gate 4 can only push the consecutive-day violations. -/
theorem gate4_violations_sub {env : Env} {uid day : Int} {w : Violation}
    (h : w ∈ gate4 env uid day) :
    w = ⟨.CONSEC001, .RED⟩ ∨ w = ⟨.CONSEC002, .ORANGE⟩ := by
  simp only [gate4] at h
  split at h
  · simp_all
  · split at h <;> simp_all

/-- The already-working check can only push the overlap reason. -/
theorem covWork_reasons_sub {weekShifts : List Shift} {day : Int} {stc : Shift}
    {empId : Int} {x : CReason} (h : x ∈ (covWork weekShifts day stc empId).1) :
    x = .alreadyWorkingOverlap := by
  simp only [covWork] at h
  split at h
  · simp_all
  · split at h <;> simp_all

/-- The leave check can only push the on-leave reason. -/
theorem covLeave_reasons_sub {weekLeaves : List Leave} {day empId : Int}
    {x : CReason} (h : x ∈ covLeave weekLeaves day empId) : x = .onLeave := by
  simp only [covLeave] at h
  split at h <;> simp_all

/-- The availability check can only push its two reasons. -/
theorem covAvail_reasons_sub {weekAvails : List Avail} {day stcStart stcStop empId : Int}
    {x : CReason} (h : x ∈ (covAvail weekAvails day stcStart stcStop empId).1) :
    x = .availNoFit ∨ x = .noAvailSet := by
  simp only [covAvail] at h
  split at h
  · split at h
    · simp_all
    · split at h <;> simp_all
  · split at h <;> simp_all

/-- Cap-check membership: the cap reason, exactly when strictly above. -/
theorem covCap_mem {projectedMinutes : Int} {x : CReason} :
    x ∈ covCap projectedMinutes ↔
      MAX_WEEKLY_MINUTES < projectedMinutes ∧ x = .hitsCap := by
  simp only [covCap]
  split <;> simp_all [gt_iff_lt]

/-- The consecutive-day check can only push the streak reason. -/
theorem covConsec_reasons_sub {streakShifts : List Shift} {day empId : Int}
    {x : CReason} (h : x ∈ (covConsec streakShifts day empId).1) :
    ∃ n, x = .tooConsecutive n := by
  simp only [covConsec] at h
  split at h
  · simp_all
  · split at h <;> simp_all

/-- The HOURS-001 violation is accumulated exactly when the projection
strictly exceeds the cap. -/
theorem validateViolations_hours_iff (env : Env) (r : ValidateReq) (uid day : Int) :
    (∃ w ∈ validateViolations env r uid day, w.rule = .HOURS001) ↔
      MAX_WEEKLY_MINUTES < projectedOf env r uid day := by
  constructor
  · rintro ⟨w, hw, hr⟩
    simp only [validateViolations, List.mem_append] at hw
    rcases hw with ((h1 | h2) | h3) | h4
    · rcases gate1_violations_sub h1 with rfl | rfl <;> simp at hr
    · rcases gate2_violations_sub h2 with rfl; simp at hr
    · exact (gate3_mem.mp h3).1
    · rcases gate4_violations_sub h4 with rfl | rfl <;> simp at hr
  · intro hlt
    refine ⟨⟨.HOURS001, .ORANGE⟩, ?_, rfl⟩
    simp only [validateViolations, List.mem_append]
    exact Or.inl (Or.inr (gate3_mem.mpr ⟨hlt, rfl⟩))

/-- The cap reason of a coverage candidate is accumulated exactly when the
candidate projection strictly exceeds the cap. -/
theorem evalCandidate_cap_iff (weekCal : Calendar) (streakShifts : List Shift)
    (day : Int) (stc : Shift) (shiftMinutes : Int) (histAvg : List (Int × Hist))
    (user : User) (empId : Int) :
    CReason.hitsCap ∈
        (evalCandidate weekCal streakShifts day stc shiftMinutes histAvg user empId).reasons ↔
      MAX_WEEKLY_MINUTES <
        (evalCandidate weekCal streakShifts day stc shiftMinutes histAvg user empId).projectedMinutes := by
  show CReason.hitsCap ∈
      (covWork weekCal.shifts day stc empId).1 ++ covLeave weekCal.leaves day empId ++
        (covAvail weekCal.avails day stc.start stc.stop empId).1 ++
        covCap (weeklyMinutesOf weekCal.shifts empId + shiftMinutes) ++
        (covConsec streakShifts day empId).1 ↔
    MAX_WEEKLY_MINUTES < weeklyMinutesOf weekCal.shifts empId + shiftMinutes
  constructor
  · intro h
    simp only [List.mem_append] at h
    rcases h with (((h1 | h2) | h3) | h4) | h5
    · cases covWork_reasons_sub h1
    · cases covLeave_reasons_sub h2
    · rcases covAvail_reasons_sub h3 with h | h <;> cases h
    · exact (covCap_mem.mp h4).1
    · obtain ⟨n, hn⟩ := covConsec_reasons_sub h5; cases hn
  · intro hlt
    simp only [List.mem_append]
    exact Or.inl (Or.inr (covCap_mem.mpr ⟨hlt, rfl⟩))

/-- C4: in both Validate and the coverage ranker, the overtime rule fires
exactly when the projected weekly total strictly exceeds the 40-hour cap;
a projected total exactly equal to the cap produces no HOURS-001 violation
and no cap reason. -/
theorem claim4_overtime_strict :
    (∀ (env : Env) (r : ValidateReq) (v : Verdict), validate env r = Except.ok v →
      ((∃ w ∈ v.violations, w.rule = .HOURS001) ↔
        MAX_WEEKLY_MINUTES < v.projectedMinutes)) ∧
    (∀ (weekCal : Calendar) (streakShifts : List Shift) (day : Int) (stc : Shift)
      (shiftMinutes : Int) (histAvg : List (Int × Hist)) (user : User) (empId : Int),
      (CReason.hitsCap ∈
          (evalCandidate weekCal streakShifts day stc shiftMinutes histAvg user empId).reasons ↔
        MAX_WEEKLY_MINUTES <
          (evalCandidate weekCal streakShifts day stc shiftMinutes histAvg user empId).projectedMinutes)) := by
  constructor
  · intro env r v h
    obtain ⟨uid, day, _, _, rfl⟩ := validate_ok_elim h
    exact validateViolations_hours_iff env r uid day
  · intro weekCal streakShifts day stc shiftMinutes histAvg user empId
    exact evalCandidate_cap_iff weekCal streakShifts day stc shiftMinutes histAvg user empId

/-- Convenience builder for a Clement shift of one employee. -/
def mkShift (uid d s e : Int) : Shift :=
  { employeeId := some uid, employee := "Emp", position := some "Barista",
    locationId := some CLEMENT, location := some "Clement Pixlcat",
    start := d * 1440 + s, stop := d * 1440 + e }

/-- Five 8-hour shifts Monday to Friday: exactly 40 weekly hours. -/
def c4env : Env :=
  ⟨[mkShift 100 1 540 1020, mkShift 100 2 540 1020, mkShift 100 3 540 1020,
    mkShift 100 4 540 1020, mkShift 100 5 540 1020], [], []⟩

def c4req : ValidateReq := ⟨some 100, none, some (.valid 6), none, none, none⟩

def c4v : Verdict := (validate c4env c4req).toOption.getD defaultVerdict

/-- Week calendar giving candidate 2 exactly 36 scheduled hours. -/
def c4cal : Calendar :=
  ⟨[mkShift 2 1 540 1260, mkShift 2 2 540 1260, mkShift 2 3 540 1260], [], []⟩

def c4stc : Shift := mkShift 1 6 540 780

def c4user : User := ⟨2, some "Bo", none⟩

/-- Witness for C4: a projection of exactly 40 hours fires neither the
validate overtime violation nor the coverage cap reason. -/
theorem claim4_overtime_strict_w :
    (¬ ∃ w ∈ c4v.violations, w.rule = .HOURS001) ∧
    CReason.hitsCap ∉ (evalCandidate c4cal [] 6 c4stc 240 [] c4user 2).reasons := by
  constructor
  · intro hex
    exact absurd ((claim4_overtime_strict.1 c4env c4req c4v (by rfl)).mp hex) (by decide)
  · intro hmem
    exact absurd ((claim4_overtime_strict.2 c4cal [] 6 c4stc 240 [] c4user 2).mp hmem)
      (by decide)

/-- When either window bound is missing, no minutes are proposed. -/
theorem proposedMinutes_none {r : ValidateReq}
    (hmiss : r.startTime = none ∨ r.endTime = none) : proposedMinutesOf r = 0 := by
  rcases hmiss with h1 | h1 <;> unfold proposedMinutesOf <;> rw [h1]
  all_goals cases r.startTime <;> rfl

/-- When either window bound is missing, Gate 1 can only push the leave
violation: the availability containment check is unreachable. -/
theorem gate1_violations_no_window {cal : Calendar} {uid : Int} {r : ValidateReq}
    {w : Violation} (hmiss : r.startTime = none ∨ r.endTime = none)
    (h : w ∈ (gate1 cal uid r).1) : w = ⟨.LEAVE001, .RED⟩ := by
  simp only [gate1] at h
  rcases List.mem_append.mp h with h | h
  · split at h <;> simp_all
  · exfalso
    rcases hmiss with h1 | h1
    · rw [h1] at h
      simp at h
    · rw [h1] at h
      cases hst : r.startTime <;> rw [hst] at h <;> simp at h

/-- C10: when the request omits startTime or endTime, the availability-fit
check of Gate 1 is skipped (AVAIL-001 is unreachable), the proposal
contributes 0 minutes so the projection equals the current weekly total,
and the hours gate compares only the existing weekly total to the cap. -/
theorem claim10_missing_window (env : Env) (r : ValidateReq) (v : Verdict)
    (hmiss : r.startTime = none ∨ r.endTime = none)
    (h : validate env r = Except.ok v) :
    (∀ w ∈ v.violations, w.rule ≠ .AVAIL001) ∧
    v.projectedMinutes = v.weeklyMinutes ∧
    ((∃ w ∈ v.violations, w.rule = .HOURS001) ↔
      MAX_WEEKLY_MINUTES < v.weeklyMinutes) := by
  obtain ⟨uid, day, _, _, rfl⟩ := validate_ok_elim h
  have hproj : projectedOf env r uid day = weeklyOf env uid day := by
    unfold projectedOf
    rw [proposedMinutes_none hmiss]
    omega
  refine ⟨?_, hproj, ?_⟩
  · intro w hw
    simp only [validateCore, validateViolations, List.mem_append] at hw
    rcases hw with ((h1 | h2) | h3) | h4
    · rcases gate1_violations_no_window hmiss h1 with rfl; simp
    · rcases gate2_violations_sub h2 with rfl; simp
    · rcases (gate3_mem.mp h3).2 with rfl; simp
    · rcases gate4_violations_sub h4 with rfl | rfl <;> simp
  · have := validateViolations_hours_iff env r uid day
    rw [hproj] at this
    exact this

/-- Five 8.2-hour shifts Monday to Friday: 41 weekly hours. -/
def c10env : Env :=
  ⟨[mkShift 100 1 540 1032, mkShift 100 2 540 1032, mkShift 100 3 540 1032,
    mkShift 100 4 540 1032, mkShift 100 5 540 1032], [], []⟩

def c10req : ValidateReq := ⟨some 100, none, some (.valid 6), none, none, none⟩

def c10v : Verdict := (validate c10env c10req).toOption.getD defaultVerdict

/-- Witness for C10 on a request with no window over a 41-hour week. -/
theorem claim10_missing_window_w :
    (∀ w ∈ c10v.violations, w.rule ≠ .AVAIL001) ∧
    c10v.projectedMinutes = c10v.weeklyMinutes ∧
    ((∃ w ∈ c10v.violations, w.rule = .HOURS001) ↔
      MAX_WEEKLY_MINUTES < c10v.weeklyMinutes) :=
  claim10_missing_window c10env c10req c10v (Or.inl rfl) (by rfl)

/-- With no availability records and no leave for the user on the day,
Gate 1 produces no violation and exactly the fallback warning. -/
theorem gate1_no_records {cal : Calendar} {uid : Int} (r : ValidateReq)
    (ha : cal.avails.filter (fun a => a.employeeId == some uid) = [])
    (hl : cal.leaves.find? (fun l => l.employeeId == some uid) = none) :
    (gate1 cal uid r).1 = [] ∧ (gate1 cal uid r).2 = [⟨.AVAILFALLBACK, .YELLOW⟩] := by
  constructor
  · simp only [gate1, ha, hl]
    cases r.startTime <;> cases r.endTime <;> simp
  · simp only [gate1, ha, hl]
    simp

/-- C3 (amended): in Validate, an employee with no availability record and
no leave for the target date receives only the YELLOW fallback warning and
no availability or leave violation.  In the coverage ranker, however, a
candidate with no availability window for the target date receives the
blocking no-availability reason exactly when some other availability
record of theirs is in the fetched week, so such a candidate can be marked
ineligible on that ground alone. -/
theorem claim3_availability_gap :
    (∀ (env : Env) (r : ValidateReq) (v : Verdict) (uid day : Int),
      validate env r = Except.ok v → userIdOf r = some uid →
      r.date = some (.valid day) →
      (dayCalOf env day).avails.filter (fun a => a.employeeId == some uid) = [] →
      (dayCalOf env day).leaves.find? (fun l => l.employeeId == some uid) = none →
      v.warnings = [⟨.AVAILFALLBACK, .YELLOW⟩] ∧
        ∀ w ∈ v.violations, w.rule ≠ .AVAIL001 ∧ w.rule ≠ .LEAVE001) ∧
    (∀ (weekAvails : List Avail) (day stcStart stcStop empId : Int),
      CReason.noAvailSet ∈ (covAvail weekAvails day stcStart stcStop empId).1 ↔
        (weekAvails.filter fun a => a.employeeId == some empId && dayOf a.start == day) = [] ∧
          (weekAvails.any fun a => a.employeeId == some empId) = true) := by
  constructor
  · intro env r v uid day h hu hd ha hl
    obtain ⟨uid', day', hu', hd', rfl⟩ := validate_ok_elim h
    rw [hu] at hu'
    injection hu' with huid
    rw [hd] at hd'
    injection hd' with hday
    injection hday with hday
    subst huid
    subst hday
    obtain ⟨hg1v, hg1w⟩ := gate1_no_records r ha hl
    constructor
    · exact hg1w
    · intro w hw
      simp only [validateCore, validateViolations, List.mem_append] at hw
      rcases hw with ((h1 | h2) | h3) | h4
      · rw [hg1v] at h1; cases h1
      · rcases gate2_violations_sub h2 with rfl
        exact ⟨by simp, by simp⟩
      · rcases (gate3_mem.mp h3).2 with rfl
        exact ⟨by simp, by simp⟩
      · rcases gate4_violations_sub h4 with rfl | rfl <;> exact ⟨by simp, by simp⟩
  · intro weekAvails day stcStart stcStop empId
    simp only [covAvail]
    by_cases hf :
        (weekAvails.filter fun a => a.employeeId == some empId && dayOf a.start == day) = []
    · rw [hf]
      simp only [List.length_nil, lt_irrefl, if_false]
      split <;> simp_all
    · rw [if_pos (List.length_pos.mpr hf)]
      constructor
      · intro hmem
        exfalso
        split at hmem
        · simp at hmem
        · split at hmem <;> simp_all
      · rintro ⟨hf', _⟩
        exact absurd hf' hf

/-- Coverage scenario refuting C3: the target shift on day 6 belongs to
employee 1; employee 2 has one availability window on day 4 and nothing on
day 6, no shifts and no leave. -/
def c3cexEnv : Env :=
  ⟨[mkShift 1 6 540 780], [],
   [{ employeeId := some 2, start := 4 * 1440 + 480, stop := 4 * 1440 + 1020,
      fullDay := false }]⟩

def c3cexUsers : List User := [⟨1, some "Ana", none⟩, ⟨2, some "Bo", none⟩]

/-- Counterexample to C3 as stated: employee 2, who merely has not
submitted availability for the target date, is returned ineligible with
the no-availability reason as the only blocking reason. -/
theorem claim3_availability_gap_cex :
    (findCoverage c3cexEnv c3cexUsers [] 6 none).map
        (fun res => res.candidates.map fun c => (c.employeeId, c.available, c.reasons)) =
      some [(2, false, [.noAvailSet])] := by
  rfl

def c3wAvails : List Avail :=
  [{ employeeId := some 2, start := 4 * 1440 + 480, stop := 4 * 1440 + 1020,
     fullDay := false }]

/-- Witness for the amended C3, on the empty validate calendar and on the
one-window coverage availability list. -/
theorem claim3_availability_gap_w :
    (c1v.warnings = [⟨.AVAILFALLBACK, .YELLOW⟩] ∧
      ∀ w ∈ c1v.violations, w.rule ≠ .AVAIL001 ∧ w.rule ≠ .LEAVE001) ∧
    CReason.noAvailSet ∈ (covAvail c3wAvails 6 9180 9420 2).1 :=
  ⟨claim3_availability_gap.1 emptyEnv c1req c1v 100 6 (by rfl) (by rfl) (by rfl)
      (by rfl) (by rfl),
   (claim3_availability_gap.2 c3wAvails 6 9180 9420 2).mpr ⟨by rfl, by rfl⟩⟩

/-- Any RED violation forces the BLOCKED status. -/
theorem resolveStatus_blocked {vs ws : List Violation}
    (h : ∃ w ∈ vs, w.severity = .RED) : resolveStatus vs ws = .BLOCKED := by
  unfold resolveStatus
  rw [if_pos]
  obtain ⟨w, hw, hsev⟩ := h
  exact (filter_length_pos_any _ _).mpr (List.any_eq_true.mpr ⟨w, hw, by simp [hsev]⟩)

/-- C7: a cross-location-pool member who already has a shift at one of the
two locations on the target day gets a RED XLOC-001 violation and overall
status BLOCKED when validated at the other location, for any proposed
times; a non-pool employee never gets a cross-location violation. -/
theorem claim7_cross_location :
    (∀ (env : Env) (r : ValidateReq) (v : Verdict) (uid day : Int),
      validate env r = Except.ok v → userIdOf r = some uid →
      r.date = some (.valid day) →
      CROSS_LOCATION_POOL.contains uid = true →
      (∃ s ∈ (dayCalOf env day).shifts, s.employeeId = some uid ∧
        ((targetLocOf r.location = CLEMENT ∧ s.locationId = some NINTH) ∨
         (targetLocOf r.location = NINTH ∧ s.locationId = some CLEMENT))) →
      (∃ w ∈ v.violations, w.rule = .XLOC001 ∧ w.severity = .RED) ∧
        v.status = .BLOCKED) ∧
    (∀ (env : Env) (r : ValidateReq) (v : Verdict) (uid : Int),
      validate env r = Except.ok v → userIdOf r = some uid →
      CROSS_LOCATION_POOL.contains uid = false →
      ∀ w ∈ v.violations, w.rule ≠ .XLOC001) := by
  constructor
  · intro env r v uid day h hu hd hpool hs
    obtain ⟨uid', day', hu', hd', rfl⟩ := validate_ok_elim h
    rw [hu] at hu'
    injection hu' with huid
    rw [hd] at hd'
    injection hd' with hday
    injection hday with hday
    subst huid
    subst hday
    obtain ⟨s, hsmem, hsid, hcase⟩ := hs
    have hg2 : gate2 (dayCalOf env day) uid (targetLocOf r.location) =
        [⟨.XLOC001, .RED⟩] := by
      rcases hcase with ⟨htl, hsl⟩ | ⟨htl, hsl⟩ <;>
        simp only [gate2, hpool, htl, if_true] <;>
        · rw [List.find?_isSome.mpr ⟨s, hsmem, by rw [hsid, hsl]; simp [CLEMENT, NINTH]⟩]
          simp
    have hmem : (⟨.XLOC001, .RED⟩ : Violation) ∈ validateViolations env r uid day := by
      simp only [validateViolations, List.mem_append]
      exact Or.inl (Or.inl (Or.inr (by rw [hg2]; simp)))
    exact ⟨⟨⟨.XLOC001, .RED⟩, hmem, rfl, rfl⟩, resolveStatus_blocked ⟨_, hmem, rfl⟩⟩
  · intro env r v uid h hu hpool w hw
    obtain ⟨uid', day', hu', hd', rfl⟩ := validate_ok_elim h
    rw [hu] at hu'
    injection hu' with huid
    subst huid
    simp only [validateCore, validateViolations, List.mem_append] at hw
    rcases hw with ((h1 | h2) | h3) | h4
    · rcases gate1_violations_sub h1 with rfl | rfl <;> simp
    · rw [show gate2 (dayCalOf env day') uid (targetLocOf r.location) = [] by
        unfold gate2; rw [hpool]; simp] at h2
      cases h2
    · rcases (gate3_mem.mp h3).2 with rfl; simp
    · rcases gate4_violations_sub h4 with rfl | rfl <;> simp

/-- Sara (a pool member) already works at 9th St on day 6. -/
def c7env : Env :=
  ⟨[{ employeeId := some 24949126, employee := "Sara", position := none,
      locationId := some NINTH, location := some "9th st Pixlcat",
      start := 6 * 1440 + 540, stop := 6 * 1440 + 1020 }], [], []⟩

def c7req : ValidateReq :=
  ⟨some 24949126, none, some (.valid 6), some ⟨9, 0⟩, some ⟨17, 0⟩, none⟩

def c7v : Verdict := (validate c7env c7req).toOption.getD defaultVerdict

/-- Same-day 9th St shift for a non-pool employee id. -/
def c7env2 : Env :=
  ⟨[{ employeeId := some 100, employee := "Emp", position := none,
      locationId := some NINTH, location := some "9th st Pixlcat",
      start := 6 * 1440 + 540, stop := 6 * 1440 + 1020 }], [], []⟩

def c7req2 : ValidateReq :=
  ⟨some 100, none, some (.valid 6), some ⟨9, 0⟩, some ⟨17, 0⟩, none⟩

def c7v2 : Verdict := (validate c7env2 c7req2).toOption.getD defaultVerdict

/-- Witness for C7: Sara validated at Clement while scheduled at 9th St is
blocked with XLOC-001; the non-pool employee in the same situation gets no
cross-location violation. -/
theorem claim7_cross_location_w :
    ((∃ w ∈ c7v.violations, w.rule = .XLOC001 ∧ w.severity = .RED) ∧
      c7v.status = .BLOCKED) ∧
    (∀ w ∈ c7v2.violations, w.rule ≠ .XLOC001) :=
  ⟨claim7_cross_location.1 c7env c7req c7v 24949126 6 (by rfl) (by rfl) (by rfl)
      (by rfl) (by decide),
   claim7_cross_location.2 c7env2 c7req2 c7v2 100 (by rfl) (by rfl) (by rfl)⟩

/-- C5 (amended): Validate rejects, before any gate runs, every request
whose employee is missing or unresolvable and every request whose date is
missing or malformed; but a zero-or-negative-duration startTime/endTime
window is not rejected: the request passes the input checks and the window
contributes its non-positive minute count to the projection. -/
theorem claim5_input_checks :
    (∀ (env : Env) (r : ValidateReq), userIdOf r = none →
      validate env r = Except.error .employeeNotFound) ∧
    (∀ (env : Env) (r : ValidateReq) (uid : Int), userIdOf r = some uid →
      r.date = none → validate env r = Except.error .dateRequired) ∧
    (∀ (env : Env) (r : ValidateReq) (uid : Int), userIdOf r = some uid →
      r.date = some .malformed → validate env r = Except.error .invalidDate) ∧
    (∀ (env : Env) (r : ValidateReq) (uid day : Int), userIdOf r = some uid →
      r.date = some (.valid day) →
      validate env r = Except.ok (validateCore env r uid day) ∧
        (validateCore env r uid day).projectedMinutes =
          (validateCore env r uid day).weeklyMinutes + proposedMinutesOf r) := by
  refine ⟨?_, ?_, ?_, ?_⟩
  · intro env r h
    unfold validate
    rw [h]
  · intro env r uid hu hd
    unfold validate
    rw [hu, hd]
  · intro env r uid hu hd
    unfold validate
    rw [hu, hd]
  · intro env r uid day hu hd
    refine ⟨?_, rfl⟩
    unfold validate
    rw [hu, hd]

def c5reqZero : ValidateReq :=
  ⟨some 100, none, some (.valid 6), some ⟨9, 0⟩, some ⟨9, 0⟩, none⟩

def c5reqNeg : ValidateReq :=
  ⟨some 100, none, some (.valid 6), some ⟨17, 0⟩, some ⟨9, 0⟩, none⟩

/-- Counterexample to C5 as stated: a zero-duration window and a negative
window both pass the input checks and reach the gates. -/
theorem claim5_input_checks_cex :
    (validate emptyEnv c5reqZero).isOk = true ∧ proposedMinutesOf c5reqZero = 0 ∧
    (validate emptyEnv c5reqNeg).isOk = true ∧ proposedMinutesOf c5reqNeg = -480 :=
  ⟨rfl, rfl, rfl, rfl⟩

def c5noEmp : ValidateReq := ⟨none, none, some (.valid 6), none, none, none⟩

/-- Witness for the amended C5: a request with no employee is rejected,
and the zero-duration request is accepted with its 0-minute window. -/
theorem claim5_input_checks_w :
    validate emptyEnv c5noEmp = Except.error .employeeNotFound ∧
    (validate emptyEnv c5reqZero = Except.ok (validateCore emptyEnv c5reqZero 100 6) ∧
      (validateCore emptyEnv c5reqZero 100 6).projectedMinutes =
        (validateCore emptyEnv c5reqZero 100 6).weeklyMinutes +
          proposedMinutesOf c5reqZero) :=
  ⟨claim5_input_checks.1 emptyEnv c5noEmp (by rfl),
   claim5_input_checks.2.2.2 emptyEnv c5reqZero 100 6 (by rfl) (by rfl)⟩

/-- C2 (amended): a validate call whose streak evaluates to 6 with no
availability record, no leave, no cross-location conflict (non-pool
employee) and a projection within the cap reports consecutiveDays = 6 and
status NEEDS_APPROVAL: the streak of 6 reaches the warn threshold and
produces the ORANGE CONSEC-002 violation, which outranks the YELLOW
missing-availability warning. -/
theorem claim2_saturday_scenario (env : Env) (r : ValidateReq) (v : Verdict)
    (uid day : Int)
    (h : validate env r = Except.ok v) (hu : userIdOf r = some uid)
    (hd : r.date = some (.valid day))
    (havail : (dayCalOf env day).avails.filter (fun a => a.employeeId == some uid) = [])
    (hleave : (dayCalOf env day).leaves.find? (fun l => l.employeeId == some uid) = none)
    (hpool : CROSS_LOCATION_POOL.contains uid = false)
    (hhours : ¬ MAX_WEEKLY_MINUTES < projectedOf env r uid day)
    (hstreak : streakCount env uid day = 6) :
    v.status = .NEEDS_APPROVAL ∧ v.consecutiveDays = 6 ∧
      v.violations = [⟨.CONSEC002, .ORANGE⟩] ∧
      v.warnings = [⟨.AVAILFALLBACK, .YELLOW⟩] := by
  obtain ⟨uid', day', hu', hd', rfl⟩ := validate_ok_elim h
  rw [hu] at hu'
  injection hu' with huid
  rw [hd] at hd'
  injection hd' with hday
  injection hday with hday
  subst huid
  subst hday
  obtain ⟨hg1v, hg1w⟩ := gate1_no_records r havail hleave
  have hg2 : gate2 (dayCalOf env day) uid (targetLocOf r.location) = [] := by
    unfold gate2; rw [hpool]; simp
  have hg3 : gate3 env r uid day = [] := by
    unfold gate3; rw [if_neg hhours]
  have hg4 : gate4 env uid day = [⟨.CONSEC002, .ORANGE⟩] := by
    unfold gate4
    rw [hstreak]
    simp [MAX_CONSECUTIVE_DAYS, WARN_CONSECUTIVE_DAYS]
  have hviol : validateViolations env r uid day = [⟨.CONSEC002, .ORANGE⟩] := by
    unfold validateViolations
    rw [hg1v, hg2, hg3, hg4]
    rfl
  refine ⟨?_, hstreak, hviol, hg1w⟩
  show resolveStatus (validateViolations env r uid day) (validateWarnings env r uid day) = _
  rw [hviol, show validateWarnings env r uid day = [⟨.AVAILFALLBACK, .YELLOW⟩] from hg1w]
  rfl

/-- The C2 scenario calendar: five 9:00 to 13:00 shifts Monday (day 1) to
Friday (day 5) of the week of Saturday day 6, nothing else. -/
def c2env : Env :=
  ⟨[mkShift 100 1 540 780, mkShift 100 2 540 780, mkShift 100 3 540 780,
    mkShift 100 4 540 780, mkShift 100 5 540 780], [], []⟩

/-- The C2 request: the same employee on the Saturday, 9:00 to 13:00. -/
def c2req : ValidateReq :=
  ⟨some 100, none, some (.valid 6), some ⟨9, 0⟩, some ⟨13, 0⟩, none⟩

def c2v : Verdict := (validate c2env c2req).toOption.getD defaultVerdict

/-- Counterexample to C2 as stated: the Monday-to-Friday scenario reports
consecutiveDays = 6 but resolves to NEEDS_APPROVAL, not UNCONFIRMED. -/
theorem claim2_saturday_scenario_cex :
    (validate c2env c2req).map (fun v => (v.status, v.consecutiveDays)) =
      Except.ok (.NEEDS_APPROVAL, 6) := by
  rfl

/-- Witness for the amended C2 on the Monday-to-Friday scenario. -/
theorem claim2_saturday_scenario_w :
    c2v.status = .NEEDS_APPROVAL ∧ c2v.consecutiveDays = 6 ∧
      c2v.violations = [⟨.CONSEC002, .ORANGE⟩] ∧
      c2v.warnings = [⟨.AVAILFALLBACK, .YELLOW⟩] :=
  claim2_saturday_scenario c2env c2req c2v 100 6 (by rfl) (by rfl) (by rfl) (by rfl)
    (by rfl) (by rfl) (by decide) (by rfl)

/-- Translate an availability window by a whole number of days: its
minute-of-day values are unchanged, its instants are not. -/
def shiftAvailDays (d : Int) (a : Avail) : Avail :=
  { a with start := a.start + 1440 * d, stop := a.stop + 1440 * d }

/-- Minute-of-day is invariant under whole-day translation. -/
theorem minuteOfDay_add_days (t d : Int) : minuteOfDay (t + 1440 * d) = minuteOfDay t := by
  unfold minuteOfDay
  omega

/-- C9 (amended): the Gate 1 containment check of Validate depends only on
the minute-of-day values of the availability windows — translating every
window by whole days never changes its outcome.  The per-candidate
availability check of findCoverage compares raw instants instead and does
not have this invariance (see the counterexample). -/
theorem claim9_minute_of_day (l : List Avail) (sMin eMin : Int) (d : Avail → Int) :
    minuteFitsAny (l.map fun a => shiftAvailDays (d a) a) sMin eMin =
      minuteFitsAny l sMin eMin := by
  induction l with
  | nil => rfl
  | cons a t ih =>
    simp only [List.map_cons, minuteFitsAny, List.any_cons] at ih ⊢
    rw [show (shiftAvailDays (d a) a).start = a.start + 1440 * d a from rfl,
      show (shiftAvailDays (d a) a).stop = a.stop + 1440 * d a from rfl,
      minuteOfDay_add_days, minuteOfDay_add_days, ih]

def c9avail : Avail := ⟨some 2, 14940, 15480, false⟩

/-- Counterexample to C9 as stated: the coverage availability check
changes outcome under a whole-day translation that preserves every
minute-of-day value, so it compares raw instants, not minute-of-day. -/
theorem claim9_minute_of_day_cex :
    minuteOfDay (shiftAvailDays 1 c9avail).start = minuteOfDay c9avail.start ∧
    minuteOfDay (shiftAvailDays 1 c9avail).stop = minuteOfDay c9avail.stop ∧
    coverageFits 14940 15480 [c9avail] = true ∧
    coverageFits 14940 15480 ([c9avail].map fun a => shiftAvailDays 1 a) = false := by
  decide

/-- The candidate comparator preorder is total. -/
theorem covLE_total (a b : Candidate) : covLE a b = true ∨ covLE b a = true := by
  unfold covLE
  cases ha : a.available <;> cases hb : b.available
  all_goals simp [ha, hb]
  omega

/-- The candidate comparator preorder is transitive. -/
theorem covLE_trans (a b c : Candidate) (h1 : covLE a b = true)
    (h2 : covLE b c = true) : covLE a c = true := by
  unfold covLE at h1 h2 ⊢
  cases ha : a.available <;> cases hb : b.available <;> cases hc : c.available <;>
    simp [ha, hb, hc] at h1 h2 ⊢ <;> omega

/-- C6: in the candidate list returned by findCoverage, every eligible
candidate precedes every ineligible one (equivalently: anything after an
ineligible candidate is ineligible), and the eligible prefix is in
ascending order of projected weekly minutes. -/
theorem claim6_candidate_order (env : Env) (users : List User)
    (histShifts : List Shift) (day : Int) (targetName : Option String)
    (res : CovResult) (h : findCoverage env users histShifts day targetName = some res) :
    res.candidates.Pairwise fun a b =>
      (b.available = true → a.available = true) ∧
      (a.available = true → b.available = true →
        a.projectedMinutes ≤ b.projectedMinutes) := by
  have hcand : ∃ cs, res.candidates = sortCandidates cs := by
    unfold findCoverage at h
    split at h
    all_goals dsimp only at h
    all_goals split at h
    all_goals cases h
    all_goals exact ⟨_, rfl⟩
  obtain ⟨cs, hcs⟩ := hcand
  rw [hcs]
  have hsorted : List.Sorted (fun a b => covLE a b = true) (sortCandidates cs) := by
    haveI : IsTotal Candidate (fun a b => covLE a b = true) := ⟨covLE_total⟩
    haveI : IsTrans Candidate (fun a b => covLE a b = true) := ⟨covLE_trans⟩
    exact List.sorted_insertionSort _ _
  refine List.Pairwise.imp ?_ hsorted
  intro a b hab
  constructor
  · intro hb
    cases ha : a.available
    · unfold covLE at hab
      simp [ha, hb] at hab
    · rfl
  · intro ha hb
    unfold covLE at hab
    simp [ha, hb] at hab
    exact hab

/-- Coverage scenario with two eligible candidates of different projected
hours: employee 3 projects fewer minutes than employee 2. -/
def c6env : Env :=
  ⟨[mkShift 1 6 540 780, mkShift 2 4 540 1020, mkShift 3 4 540 660], [], []⟩

def c6users : List User := [⟨1, some "Ana", none⟩, ⟨2, some "Bo", none⟩, ⟨3, some "Cy", none⟩]

def defaultCov : CovResult := ⟨mkShift 0 0 0 0, ⟨.noMatch, none⟩, []⟩

def c6res : CovResult := (findCoverage c6env c6users [] 6 none).getD defaultCov

/-- Witness for C6 on the two-candidate scenario. -/
theorem claim6_candidate_order_w :
    c6res.candidates.Pairwise fun a b =>
      (b.available = true → a.available = true) ∧
      (a.available = true → b.available = true →
        a.projectedMinutes ≤ b.projectedMinutes) :=
  claim6_candidate_order c6env c6users [] 6 none c6res (by rfl)

/-- Number of shifts of a list falling in a slot group. -/
def countKey (l : List Shift) (k : SlotKey) : Nat :=
  (l.filter fun s => slotKeyOf s == k).length

theorem countKey_append_single (l : List Shift) (s : Shift) (k : SlotKey) :
    countKey (l ++ [s]) k = countKey l k + (if slotKeyOf s == k then 1 else 0) := by
  unfold countKey
  rw [List.filter_append, List.length_append]
  congr 1
  simp only [List.filter_cons, List.filter_nil]
  split <;> simp

theorem countKey_eq_zero {l : List Shift} {k : SlotKey}
    (h : ∀ t ∈ l, slotKeyOf t ≠ k) : countKey l k = 0 := by
  unfold countKey
  rw [List.length_eq_zero, List.filter_eq_nil_iff]
  intro a ha
  simp [h a ha]

/-- One `bumpSlot` step preserves the grouping invariant: distinct keys,
each entry keyed by its own template dimensions and counting exactly the
processed shifts of its group, and every processed shift represented. -/
theorem bumpSlot_inv {processed : List Shift} {acc : List (SlotKey × Template)}
    (s : Shift)
    (h1 : (acc.map Prod.fst).Nodup)
    (h2 : ∀ p ∈ acc, tKey p.2 = p.1 ∧ p.2.count = countKey processed p.1)
    (h3 : ∀ t ∈ processed, slotKeyOf t ∈ acc.map Prod.fst) :
    ((bumpSlot acc s).map Prod.fst).Nodup ∧
    (∀ p ∈ bumpSlot acc s, tKey p.2 = p.1 ∧ p.2.count = countKey (processed ++ [s]) p.1) ∧
    (∀ t ∈ processed ++ [s], slotKeyOf t ∈ (bumpSlot acc s).map Prod.fst) := by
  unfold bumpSlot
  by_cases hin : (acc.any fun p => p.1 == slotKeyOf s) = true
  · rw [if_pos hin]
    have hkeys : ((acc.map fun p => if p.1 == slotKeyOf s then
        (p.1, { p.2 with count := p.2.count + 1 }) else p).map Prod.fst) =
          acc.map Prod.fst := by
      rw [List.map_map]
      apply List.map_congr_left
      intro p _
      by_cases hp : (p.1 == slotKeyOf s) = true <;> simp [hp, Function.comp]
    refine ⟨hkeys ▸ h1, ?_, ?_⟩
    · intro q hq
      rw [List.mem_map] at hq
      obtain ⟨p, hp, rfl⟩ := hq
      obtain ⟨hk, hc⟩ := h2 p hp
      by_cases hpk : (p.1 == slotKeyOf s) = true
      · rw [if_pos hpk]
        refine ⟨hk, ?_⟩
        rw [countKey_append_single,
          if_pos (beq_iff_eq.mpr (beq_iff_eq.mp hpk).symm), hc]
      · rw [if_neg hpk]
        refine ⟨hk, ?_⟩
        rw [countKey_append_single,
          if_neg (fun hx => hpk (beq_iff_eq.mpr (beq_iff_eq.mp hx).symm)), hc,
          Nat.add_zero]
    · intro t ht
      rw [hkeys]
      rcases List.mem_append.mp ht with ht | ht
      · exact h3 t ht
      · rcases List.mem_singleton.mp ht with rfl
        obtain ⟨p, hp, hpk⟩ := List.any_eq_true.mp hin
        exact List.mem_map.mpr ⟨p, hp, beq_iff_eq.mp hpk⟩
  · rw [if_neg hin]
    have hnotin : slotKeyOf s ∉ acc.map Prod.fst := by
      intro hmem
      rcases List.mem_map.mp hmem with ⟨p, hp, hpe⟩
      exact hin (List.any_eq_true.mpr ⟨p, hp, beq_iff_eq.mpr hpe⟩)
    have hzero : countKey processed (slotKeyOf s) = 0 := by
      apply countKey_eq_zero
      intro t ht hkt
      exact hnotin (hkt ▸ h3 t ht)
    refine ⟨?_, ?_, ?_⟩
    · rw [List.map_append]
      refine List.Nodup.append h1 (List.nodup_singleton _) ?_
      intro a ha hb
      rcases List.mem_singleton.mp hb with rfl
      exact hnotin ha
    · intro q hq
      rcases List.mem_append.mp hq with hq | hq
      · obtain ⟨hk, hc⟩ := h2 q hq
        refine ⟨hk, ?_⟩
        have hne : ¬ ((slotKeyOf s == q.1) = true) := by
          intro hx
          exact hnotin (beq_iff_eq.mp hx ▸ List.mem_map.mpr ⟨q, hq, rfl⟩)
        rw [countKey_append_single, if_neg hne, hc, Nat.add_zero]
      · rcases List.mem_singleton.mp hq with rfl
        refine ⟨rfl, ?_⟩
        rw [countKey_append_single, if_pos (beq_iff_eq.mpr rfl), hzero]
    · intro t ht
      rw [List.map_append]
      rcases List.mem_append.mp ht with ht | ht
      · exact List.mem_append.mpr (Or.inl (h3 t ht))
      · rcases List.mem_singleton.mp ht with rfl
        exact List.mem_append.mpr (Or.inr (by simp))

/-- The grouping invariant holds along the whole `slotCounts` fold. -/
theorem slotFold_inv (l : List Shift) (processed : List Shift)
    (acc : List (SlotKey × Template))
    (h1 : (acc.map Prod.fst).Nodup)
    (h2 : ∀ p ∈ acc, tKey p.2 = p.1 ∧ p.2.count = countKey processed p.1)
    (h3 : ∀ t ∈ processed, slotKeyOf t ∈ acc.map Prod.fst) :
    ((l.foldl bumpSlot acc).map Prod.fst).Nodup ∧
    (∀ p ∈ l.foldl bumpSlot acc, tKey p.2 = p.1 ∧
      p.2.count = countKey (processed ++ l) p.1) ∧
    (∀ t ∈ processed ++ l, slotKeyOf t ∈ (l.foldl bumpSlot acc).map Prod.fst) := by
  induction l generalizing processed acc with
  | nil =>
    simp only [List.foldl_nil, List.append_nil]
    exact ⟨h1, h2, h3⟩
  | cons s t ih =>
    obtain ⟨s1, s2, s3⟩ := bumpSlot_inv s h1 h2 h3
    have := ih (processed ++ [s]) (bumpSlot acc s) s1 s2 s3
    simpa [List.append_assoc] using this

/-- The grouping specification of `slotFold`. -/
theorem slotFold_spec (l : List Shift) :
    ((slotFold l).map Prod.fst).Nodup ∧
    (∀ p ∈ slotFold l, tKey p.2 = p.1 ∧ p.2.count = countKey l p.1) ∧
    (∀ t ∈ l, slotKeyOf t ∈ (slotFold l).map Prod.fst) := by
  have := slotFold_inv l [] [] (by simp) (by simp) (by simp)
  simpa using this

/-- Membership in the template list: a group record of the fold whose
count passed the frequency threshold. -/
theorem mem_getShiftTemplates {windowShifts : List Shift} {t : Template} :
    t ∈ getShiftTemplates windowShifts ↔
      (∃ p ∈ slotFold (clementShiftsOf windowShifts), p.2 = t) ∧ 3 ≤ t.count := by
  unfold getShiftTemplates
  rw [List.mem_insertionSort, List.mem_filter]
  simp [List.mem_map]

/-- The four tier tests of `matchesTemplate`, characterized by existence
of a matching template, in the fixed priority order. -/
theorem matchesTemplate_kinds (stc : Shift) (ts : List Template) :
    ((matchesTemplate stc ts).kind = .exact ↔ ∃ t ∈ ts, exactHit stc t = true) ∧
    ((matchesTemplate stc ts).kind = .byPosition ↔
      (¬ ∃ t ∈ ts, exactHit stc t = true) ∧ ∃ t ∈ ts, posDayHit stc t = true) ∧
    ((matchesTemplate stc ts).kind = .byTime ↔
      (¬ ∃ t ∈ ts, exactHit stc t = true) ∧ (¬ ∃ t ∈ ts, posDayHit stc t = true) ∧
        ∃ t ∈ ts, timeHit stc t = true) ∧
    ((matchesTemplate stc ts).kind = .noMatch ↔
      (¬ ∃ t ∈ ts, exactHit stc t = true) ∧ (¬ ∃ t ∈ ts, posDayHit stc t = true) ∧
        ¬ ∃ t ∈ ts, timeHit stc t = true) := by
  unfold matchesTemplate
  cases hE : ts.find? (exactHit stc) with
  | some tE =>
    have hex : ∃ t ∈ ts, exactHit stc t = true :=
      ⟨tE, List.mem_of_find?_eq_some hE, List.find?_some hE⟩
    exact ⟨by simp [hex], by simp [hex], by simp [hex], by simp [hex]⟩
  | none =>
    have hnex : ¬ ∃ t ∈ ts, exactHit stc t = true := by
      rw [List.find?_eq_none] at hE
      rintro ⟨t, ht, hp⟩
      exact hE t ht hp
    cases hP : ts.find? (posDayHit stc) with
    | some tP =>
      have hpos : ∃ t ∈ ts, posDayHit stc t = true :=
        ⟨tP, List.mem_of_find?_eq_some hP, List.find?_some hP⟩
      exact ⟨by simp [hnex], by simp [hnex, hpos], by simp [hpos], by simp [hpos]⟩
    | none =>
      have hnpos : ¬ ∃ t ∈ ts, posDayHit stc t = true := by
        rw [List.find?_eq_none] at hP
        rintro ⟨t, ht, hp⟩
        exact hP t ht hp
      cases hT : ts.find? (timeHit stc) with
      | some tT =>
        have htime : ∃ t ∈ ts, timeHit stc t = true :=
          ⟨tT, List.mem_of_find?_eq_some hT, List.find?_some hT⟩
        exact ⟨by simp [hnex], by simp [hnpos], by simp [hnex, hnpos, htime],
          by simp [htime]⟩
      | none =>
        have hntime : ¬ ∃ t ∈ ts, timeHit stc t = true := by
          rw [List.find?_eq_none] at hT
          rintro ⟨t, ht, hp⟩
          exact hT t ht hp
        exact ⟨by simp [hnex], by simp [hnpos], by simp [hntime],
          by simp [hnex, hnpos, hntime]⟩

/-- C8: getShiftTemplates returns exactly the slot groups observed at
least 3 times in the trailing window (one template per group, carrying the
observed count), sorted by descending count; and matchesTemplate
classifies a shift into exactly one tier, tried in the fixed order exact,
then position, then time, then none. -/
theorem claim8_template_matcher :
    (∀ windowShifts : List Shift,
      (∀ t ∈ getShiftTemplates windowShifts,
        3 ≤ t.count ∧ t.count = countKey (clementShiftsOf windowShifts) (tKey t)) ∧
      (∀ k : SlotKey, 3 ≤ countKey (clementShiftsOf windowShifts) k →
        ∃ t ∈ getShiftTemplates windowShifts, tKey t = k ∧
          t.count = countKey (clementShiftsOf windowShifts) k) ∧
      ((getShiftTemplates windowShifts).map tKey).Nodup ∧
      (getShiftTemplates windowShifts).Pairwise fun a b => b.count ≤ a.count) ∧
    (∀ (stc : Shift) (ts : List Template),
      ((matchesTemplate stc ts).kind = .exact ↔ ∃ t ∈ ts, exactHit stc t = true) ∧
      ((matchesTemplate stc ts).kind = .byPosition ↔
        (¬ ∃ t ∈ ts, exactHit stc t = true) ∧ ∃ t ∈ ts, posDayHit stc t = true) ∧
      ((matchesTemplate stc ts).kind = .byTime ↔
        (¬ ∃ t ∈ ts, exactHit stc t = true) ∧ (¬ ∃ t ∈ ts, posDayHit stc t = true) ∧
          ∃ t ∈ ts, timeHit stc t = true) ∧
      ((matchesTemplate stc ts).kind = .noMatch ↔
        (¬ ∃ t ∈ ts, exactHit stc t = true) ∧ (¬ ∃ t ∈ ts, posDayHit stc t = true) ∧
          ¬ ∃ t ∈ ts, timeHit stc t = true)) := by
  constructor
  · intro w
    refine ⟨?_, ?_, ?_, ?_⟩
    · intro t ht
      obtain ⟨⟨p, hp, rfl⟩, h3c⟩ := mem_getShiftTemplates.mp ht
      obtain ⟨hk, hc⟩ := (slotFold_spec _).2.1 p hp
      refine ⟨h3c, ?_⟩
      rw [hk]
      exact hc
    · intro k h3c
      obtain ⟨sft, hsf, hsk⟩ : ∃ s ∈ clementShiftsOf w, (slotKeyOf s == k) = true := by
        have hpos : 0 < countKey (clementShiftsOf w) k :=
          Nat.lt_of_lt_of_le (by decide) h3c
        unfold countKey at hpos
        exact List.any_eq_true.mp ((filter_length_pos_any _ _).mp hpos)
      have hkey := (slotFold_spec (clementShiftsOf w)).2.2 sft hsf
      rw [beq_iff_eq.mp hsk] at hkey
      obtain ⟨p, hp, hpk⟩ := List.mem_map.mp hkey
      obtain ⟨hk2, hc2⟩ := (slotFold_spec _).2.1 p hp
      refine ⟨p.2, ?_, ?_, ?_⟩
      · apply mem_getShiftTemplates.mpr
        refine ⟨⟨p, hp, rfl⟩, ?_⟩
        rw [hc2, hpk]
        exact h3c
      · rw [hk2, hpk]
      · rw [hc2, hpk]
    · have h3 : ((slotFold (clementShiftsOf w)).map Prod.snd).map tKey =
          (slotFold (clementShiftsOf w)).map Prod.fst := by
        rw [List.map_map]
        apply List.map_congr_left
        intro p hp
        exact ((slotFold_spec _).2.1 p hp).1
      have hsub : ((((slotFold (clementShiftsOf w)).map Prod.snd).filter
            fun t => decide (3 ≤ t.count)).map tKey).Nodup := by
        refine List.Nodup.sublist (List.Sublist.map tKey (List.filter_sublist _)) ?_
        rw [h3]
        exact (slotFold_spec _).1
      have hperm : List.Perm (getShiftTemplates w)
          (((slotFold (clementShiftsOf w)).map Prod.snd).filter
            fun t => decide (3 ≤ t.count)) := List.perm_insertionSort _ _
      exact ((hperm.map tKey).nodup_iff).mpr hsub
    · unfold getShiftTemplates
      haveI : IsTotal Template (fun a b => b.count ≤ a.count) :=
        ⟨fun a b => Nat.le_total b.count a.count⟩
      haveI : IsTrans Template (fun a b => b.count ≤ a.count) :=
        ⟨fun _ _ _ h1 h2 => Nat.le_trans h2 h1⟩
      exact List.sorted_insertionSort _ _
  · exact matchesTemplate_kinds

/-- Three identical Monday-to-Wednesday Clement shifts: one slot group of
count 3. -/
def c8win : List Shift :=
  [mkShift 7 1 540 1020, mkShift 7 2 540 1020, mkShift 7 3 540 1020]

def c8k : SlotKey := ⟨"Barista", 540, 1020, .weekday⟩

/-- Witness for C8: the thrice-observed slot becomes a template with its
key and count, and the exact-tier characterization applies to it. -/
theorem claim8_template_matcher_w :
    (∃ t ∈ getShiftTemplates c8win, tKey t = c8k ∧
      t.count = countKey (clementShiftsOf c8win) c8k) ∧
    ((matchesTemplate (mkShift 7 1 540 1020) (getShiftTemplates c8win)).kind = .exact ↔
      ∃ t ∈ getShiftTemplates c8win, exactHit (mkShift 7 1 540 1020) t = true) :=
  ⟨(claim8_template_matcher.1 c8win).2.1 c8k (by decide),
   (claim8_template_matcher.2 (mkShift 7 1 540 1020) (getShiftTemplates c8win)).1⟩

end Pixlcat
